import Mathlib

/-!
Verification development for the conciliation backend
(`backend/normalizador.py`, `backend/conciliador.py`).

The Python code is shallowly embedded:

* pandas cell values become the inductive type `Value` (`null` models
  `None`/`NaN`/`NaT`, `num` models Python numbers as exact rationals,
  `date` models normalized `pandas.Timestamp` values as calendar dates);
* a `pandas.DataFrame` becomes a header list plus a list of rows;
* Python floats are modelled as exact rationals `ℚ`, with `round(x, 2)`
  modelled as round-half-even on the exact value;
* exceptions become `Except String`;
* the in-place mutation structure of `_preparar_dataframe` / `conciliar`
  is modelled separately by an explicit heap of data frames, in order to
  state the no-input-mutation property.

Library calls (`pd.to_datetime(dayfirst=True, errors="coerce")`,
`unicodedata` NFKD, `str.upper`, `rapidfuzz.fuzz.token_sort_ratio`,
`float(...)`) are modelled by executable Lean functions that follow the
documented behaviour of those libraries on the data this program handles;
each model is noted at its definition.
-/

/-! ## Character-level models of Python string primitives -/

/-- Model of Python whitespace (`str.strip`, `str.split`, regex `\s`):
space, tab, LF, VT, FF, CR and NBSP. -/
def isPyWs (c : Char) : Bool :=
  c.toNat = 32 || c.toNat = 9 || c.toNat = 10 || c.toNat = 11 ||
  c.toNat = 12 || c.toNat = 13 || c.toNat = 160

def isUpperAZ (c : Char) : Bool := 65 ≤ c.toNat && c.toNat ≤ 90

def isDigitCh (c : Char) : Bool := 48 ≤ c.toNat && c.toNat ≤ 57

/-- Model of Python `str.upper()` per character, covering ASCII and the
Latin-1 accented letters this application sees. -/
def pyUpper (c : Char) : Char :=
  if 97 ≤ c.toNat ∧ c.toNat ≤ 122 then Char.ofNat (c.toNat - 32)
  else if 224 ≤ c.toNat ∧ c.toNat ≤ 246 then Char.ofNat (c.toNat - 32)
  else if 248 ≤ c.toNat ∧ c.toNat ≤ 254 then Char.ofNat (c.toNat - 32)
  else c

/-- Model of Python `str.lower()` per character (inverse direction). -/
def pyLower (c : Char) : Char :=
  if 65 ≤ c.toNat ∧ c.toNat ≤ 90 then Char.ofNat (c.toNat + 32)
  else if 192 ≤ c.toNat ∧ c.toNat ≤ 214 then Char.ofNat (c.toNat + 32)
  else if 216 ≤ c.toNat ∧ c.toNat ≤ 222 then Char.ofNat (c.toNat + 32)
  else c

def combAcute : Char := Char.ofNat 769
def combGrave : Char := Char.ofNat 768
def combCirc : Char := Char.ofNat 770
def combTildeM : Char := Char.ofNat 771
def combDiaer : Char := Char.ofNat 776
def combRingM : Char := Char.ofNat 778
def combCedil : Char := Char.ofNat 807

/-- A combining diacritical mark (U+0300 – U+036F), as recognized by
`unicodedata.combining`. -/
def combiningMark (c : Char) : Bool := 768 ≤ c.toNat && c.toNat ≤ 879

/-- Model of `unicodedata.normalize("NFKD", ·)` per character for the
Latin letters and signs this application sees; characters without a
decomposition map to themselves.  Note `º` (masculine ordinal) has the
compatibility decomposition `o` and `ª` has `a`. -/
def nfkdChar (c : Char) : List Char :=
  match c with
  | 'Á' => ['A', combAcute]
  | 'É' => ['E', combAcute]
  | 'Í' => ['I', combAcute]
  | 'Ó' => ['O', combAcute]
  | 'Ú' => ['U', combAcute]
  | 'À' => ['A', combGrave]
  | 'È' => ['E', combGrave]
  | 'Ì' => ['I', combGrave]
  | 'Ò' => ['O', combGrave]
  | 'Ù' => ['U', combGrave]
  | 'Â' => ['A', combCirc]
  | 'Ê' => ['E', combCirc]
  | 'Î' => ['I', combCirc]
  | 'Ô' => ['O', combCirc]
  | 'Û' => ['U', combCirc]
  | 'Ä' => ['A', combDiaer]
  | 'Ë' => ['E', combDiaer]
  | 'Ï' => ['I', combDiaer]
  | 'Ö' => ['O', combDiaer]
  | 'Ü' => ['U', combDiaer]
  | 'Ã' => ['A', combTildeM]
  | 'Õ' => ['O', combTildeM]
  | 'Ñ' => ['N', combTildeM]
  | 'Å' => ['A', combRingM]
  | 'Ç' => ['C', combCedil]
  | 'á' => ['a', combAcute]
  | 'é' => ['e', combAcute]
  | 'í' => ['i', combAcute]
  | 'ó' => ['o', combAcute]
  | 'ú' => ['u', combAcute]
  | 'à' => ['a', combGrave]
  | 'è' => ['e', combGrave]
  | 'ì' => ['i', combGrave]
  | 'ò' => ['o', combGrave]
  | 'ù' => ['u', combGrave]
  | 'â' => ['a', combCirc]
  | 'ê' => ['e', combCirc]
  | 'î' => ['i', combCirc]
  | 'ô' => ['o', combCirc]
  | 'û' => ['u', combCirc]
  | 'ä' => ['a', combDiaer]
  | 'ë' => ['e', combDiaer]
  | 'ï' => ['i', combDiaer]
  | 'ö' => ['o', combDiaer]
  | 'ü' => ['u', combDiaer]
  | 'ã' => ['a', combTildeM]
  | 'õ' => ['o', combTildeM]
  | 'ñ' => ['n', combTildeM]
  | 'å' => ['a', combRingM]
  | 'ç' => ['c', combCedil]
  | 'º' => ['o']
  | 'ª' => ['a']
  | _ => [c]

def trimLeft (l : List Char) : List Char := l.dropWhile isPyWs

/-- Model of Python `str.strip()`. -/
def pyTrim (l : List Char) : List Char :=
  ((trimLeft l).reverse.dropWhile isPyWs).reverse

/-- Model of `re.sub(r"\s+", " ", ·)`: each maximal whitespace run becomes
one space.  The boolean flag records whether the previous character was
part of a whitespace run. -/
def collapseWs : Bool → List Char → List Char
  | _, [] => []
  | prevWs, c :: rest =>
    if isPyWs c then
      if prevWs then collapseWs true rest
      else ' ' :: collapseWs true rest
    else c :: collapseWs false rest

/-- Split on whitespace runs, dropping empty pieces: Python `str.split()`. -/
def splitWsAux : List Char → List Char → List (List Char)
  | cur, [] => if cur.isEmpty then [] else [cur.reverse]
  | cur, c :: rest =>
    if isPyWs c then
      if cur.isEmpty then splitWsAux [] rest
      else cur.reverse :: splitWsAux [] rest
    else splitWsAux (c :: cur) rest

def splitWs (l : List Char) : List (List Char) := splitWsAux [] l

def splitOnChAux (sep : Char) : List Char → List Char → List (List Char)
  | cur, [] => [cur.reverse]
  | cur, c :: rest =>
    if c == sep then cur.reverse :: splitOnChAux sep [] rest
    else splitOnChAux sep (c :: cur) rest

/-- Split on a separator character, keeping empty pieces. -/
def splitOnCh (sep : Char) (l : List Char) : List (List Char) :=
  splitOnChAux sep [] l

def removeCh (ch : Char) (l : List Char) : List Char :=
  l.filter (fun c => c ≠ ch)

def allDigits (l : List Char) : Bool := !l.isEmpty && l.all isDigitCh

def toNatCh (l : List Char) : Nat :=
  l.foldl (fun a c => a * 10 + (c.toNat - 48)) 0

def natDigitsAux : Nat → Nat → List Char
  | 0, _ => []
  | fuel + 1, n =>
    if n = 0 then []
    else natDigitsAux fuel (n / 10) ++ [Char.ofNat (48 + n % 10)]

def natDigits (n : Nat) : List Char :=
  if n = 0 then ['0'] else natDigitsAux (n + 1) n

def intDigits (i : Int) : List Char :=
  if i < 0 then '-' :: natDigits i.natAbs else natDigits i.natAbs

/-! ## Exact-rational model of Python floats

Python float values are modelled as exact fractions.  A dedicated
unnormalized fraction type is used (rather than Mathlib's `ℚ`) so that
every arithmetic operation reduces inside the kernel; value comparisons
are by cross-multiplication, exactly the float comparisons of the
program.  Denominators are positive for every fraction the program
builds. -/

structure PyNum where
  num : Int
  den : Nat
deriving DecidableEq

def qOfNat (n : Nat) : PyNum := ⟨(n : Int), 1⟩

def qAdd (a b : PyNum) : PyNum :=
  ⟨a.num * (b.den : Int) + b.num * (a.den : Int), a.den * b.den⟩

def qMul (a b : PyNum) : PyNum := ⟨a.num * b.num, a.den * b.den⟩

def qNeg (a : PyNum) : PyNum := ⟨-a.num, a.den⟩

def qAbs (a : PyNum) : PyNum := ⟨(a.num.natAbs : Int), a.den⟩

/-- Division; division by zero yields 0 (it cannot occur in the program). -/
def qDiv (a b : PyNum) : PyNum :=
  if b.num < 0 then ⟨-(a.num * (b.den : Int)), a.den * b.num.natAbs⟩
  else ⟨a.num * (b.den : Int), a.den * b.num.natAbs⟩

/-- Value equality of fractions (float `==`). -/
def qEqB (a b : PyNum) : Bool :=
  a.num * (b.den : Int) == b.num * (a.den : Int)

/-- Value order of fractions (float `<=`), valid for the positive
denominators the program produces. -/
def qLe (a b : PyNum) : Bool :=
  a.num * (b.den : Int) ≤ b.num * (a.den : Int)

def qLt (a b : PyNum) : Bool :=
  a.num * (b.den : Int) < b.num * (a.den : Int)

def qFloor (a : PyNum) : Int := Int.fdiv a.num (a.den : Int)

/-- Round-half-even to an integer, the rounding Python `round` and float
formatting use (on the exact decimal value; binary representation error
is not modelled). -/
def roundHalfEven (q : PyNum) : Int :=
  let f : Int := qFloor q
  let rnum : Int := q.num - f * (q.den : Int)
  if 2 * rnum < (q.den : Int) then f
  else if 2 * rnum > (q.den : Int) then f + 1
  else if f % 2 = 0 then f else f + 1

/-- Model of Python `round(q, 2)`. -/
def round2 (q : PyNum) : PyNum := ⟨roundHalfEven (qMul q ⟨100, 1⟩), 100⟩

/-- Model of the `%.1f` float format used in the observation strings. -/
def fmt1 (q : PyNum) : List Char :=
  let n := roundHalfEven (qMul q ⟨10, 1⟩)
  let m := n.natAbs
  let core := natDigits (m / 10) ++ ['.', Char.ofNat (48 + m % 10)]
  if n < 0 then '-' :: core else core

def qPow10 (e : Int) : PyNum :=
  if 0 ≤ e then ⟨((10 : Nat) ^ e.toNat : Nat), 1⟩
  else ⟨1, (10 : Nat) ^ (-e).toNat⟩

def expPart (sgn : Int) (base : PyNum) (rest : List Char) : Option PyNum :=
  let sgnSplit : Int × List Char :=
    match rest with
    | '+' :: r => (1, r)
    | '-' :: r => (-1, r)
    | r => (1, r)
  let ed := sgnSplit.2.takeWhile isDigitCh
  let r2 := sgnSplit.2.dropWhile isDigitCh
  if ed.isEmpty || !r2.isEmpty then none
  else some (qMul (qMul ⟨sgn, 1⟩ base) (qPow10 (sgnSplit.1 * (toNatCh ed : Int))))

/-- Model of Python `float(text)` on plain decimal notation with optional
sign and exponent (underscore separators, `inf` and `nan` are not part of
the model; they do not occur in this application's data). -/
def pyFloat (l : List Char) : Option PyNum :=
  let signSplit : Int × List Char :=
    match l with
    | '+' :: rest => (1, rest)
    | '-' :: rest => (-1, rest)
    | rest => (1, rest)
  let ip := signSplit.2.takeWhile isDigitCh
  let l2 := signSplit.2.dropWhile isDigitCh
  let fracSplit : List Char × List Char :=
    match l2 with
    | '.' :: rest => (rest.takeWhile isDigitCh, rest.dropWhile isDigitCh)
    | rest => ([], rest)
  let fp := fracSplit.1
  if ip.isEmpty && fp.isEmpty then none
  else
    let base : PyNum := qAdd (qOfNat (toNatCh ip)) ⟨(toNatCh fp : Int), (10 : Nat) ^ fp.length⟩
    match fracSplit.2 with
    | [] => some (qMul ⟨signSplit.1, 1⟩ base)
    | 'e' :: rest => expPart signSplit.1 base rest
    | 'E' :: rest => expPart signSplit.1 base rest
    | _ => none

/-! ## Calendar dates -/

/-- A calendar date, the value of a normalized timestamp (midnight). -/
structure CalDate where
  year : Int
  month : Nat
  day : Nat
deriving DecidableEq

/-- Rata-die day number of a calendar date (standard civil-from-days
formula).  Normalized `pandas.Timestamp` values compare and subtract as
instants, i.e. by this day number. -/
def rdOf (dt : CalDate) : Int :=
  let y : Int := if dt.month ≤ 2 then dt.year - 1 else dt.year
  let m : Int := dt.month
  let d : Int := dt.day
  let era : Int := Int.fdiv y 400
  let yoe : Int := y - era * 400
  let mp : Int := if dt.month ≤ 2 then m + 9 else m - 3
  let doy : Int := Int.fdiv (153 * mp + 2) 5 + d - 1
  let doe : Int := yoe * 365 + Int.fdiv yoe 4 - Int.fdiv yoe 100 + doy
  era * 146097 + doe - 719468

def isLeap (y : Int) : Bool :=
  (y % 4 = 0 && y % 100 ≠ 0) || y % 400 = 0

def daysInMonth (y : Int) (m : Nat) : Nat :=
  if m = 2 then (if isLeap y then 29 else 28)
  else if m = 4 || m = 6 || m = 9 || m = 11 then 30
  else 31

def mkValidDate (y : Int) (m d : Nat) : Option CalDate :=
  if 1 ≤ m && m ≤ 12 && 1 ≤ d && d ≤ daysInMonth y m then
    some ⟨y, m, d⟩
  else none

/-- Two-digit years as `pandas`/`dateutil` resolve them (00–68 → 2000s). -/
def fixYear2 (n : Nat) : Int :=
  if n ≤ 68 then 2000 + (n : Int) else 1900 + (n : Int)

/-- Parse three digit groups with one separator as a day-first date:
`dd?mm?yyyy`, `yyyy?mm?dd`, or two-digit-year `dd?mm?yy`. -/
def parseWithSep (sep : Char) (l : List Char) : Option CalDate :=
  match splitOnCh sep l with
  | [a, b, c] =>
    if allDigits a && allDigits b && allDigits c then
      if a.length = 4 then mkValidDate (toNatCh a) (toNatCh b) (toNatCh c)
      else if c.length = 4 then mkValidDate (toNatCh c) (toNatCh b) (toNatCh a)
      else if a.length ≤ 2 && b.length ≤ 2 && c.length ≤ 2 then
        mkValidDate (fixYear2 (toNatCh c)) (toNatCh b) (toNatCh a)
      else none
    else none
  | _ => none

/-- Model of `pd.to_datetime(text, dayfirst=True, errors="coerce")`
restricted to the day-first format families the specification lists
(`dd/mm/yyyy`, `dd-mm-yyyy`, `dd.mm.yyyy`, `yyyy-mm-dd`, `yyyy/mm/dd`
and two-digit-year variants); unparseable text coerces to `NaT`,
modelled as `none`. -/
def parseDateAny (l : List Char) : Option CalDate :=
  match parseWithSep '/' l with
  | some d => some d
  | none =>
    match parseWithSep '-' l with
    | some d => some d
    | none => parseWithSep '.' l

/-! ## Cell values -/

/-- A pandas cell value: `null` models `None`/`NaN`/`NaT`. -/
inductive Value where
  | null : Value
  | str (s : String) : Value
  | num (q : PyNum) : Value
  | date (dt : CalDate) : Value
deriving DecidableEq

/-- Model of `pd.isna` on cell values. -/
def pdIsna : Value → Bool
  | Value.null => true
  | _ => false

def sNoneRepr : String := "None"

/-- Model of Python `str(value)` as used on cell values.  Rationals are
rendered as integers when whole and as `num/den` otherwise; only the
identity on actual strings matters for the verified properties, and both
normalizer variants share this model. -/
def strOfValue : Value → String
  | Value.null => sNoneRepr
  | Value.str s => s
  | Value.num q =>
    if q.den = 1 then String.mk (intDigits q.num)
    else String.mk (intDigits q.num ++ '/' :: natDigits q.den)
  | Value.date dt =>
    String.mk (intDigits dt.year ++ '-' :: natDigits dt.month ++
      '-' :: natDigits dt.day)

/-! ## `normalizador.py` -/

/-- `normalizar_fecha` from `backend/normalizador.py`: `None`/`NaN` and
blank text give `none`; timestamp-like values are passed through
normalized; text is stripped and parsed day-first, unparseable text
coercing to `NaT` (`none`).  It never raises: the result type is
`Option CalDate` and the function is total. -/
def normalizar_fecha (valor : Value) : Option CalDate :=
  if pdIsna valor then none
  else
    match valor with
    | Value.date dt => some dt
    | v =>
      let texto := pyTrim (strOfValue v).data
      if texto.isEmpty then none
      else parseDateAny texto

/-- `_quitar_tildes` from `backend/normalizador.py`: NFKD-decompose and
drop combining marks. -/
def quitar_tildes (l : List Char) : List Char :=
  ((l.map nfkdChar).flatten).filter (fun c => !combiningMark c)

/-- Keep-set of the regex `[^A-Z0-9\s\-\_\.]` in `normalizar_concepto`:
uppercase ASCII letters, digits, any whitespace, `-`, `_`, `.`. -/
def keepCode (c : Char) : Bool :=
  isUpperAZ c || isDigitCh c || isPyWs c || c = '-' || c = '_' || c = '.'

def replCode (c : Char) : Char := if keepCode c then c else ' '

/-- `normalizar_concepto` from `backend/normalizador.py`: null gives the
empty string; otherwise strip, uppercase, drop diacritics, replace every
character outside `[A-Z0-9\s\-\_\.]` by a space, collapse whitespace runs
to one space, and strip again. -/
def normalizar_concepto (valor : Value) : String :=
  if pdIsna valor then ""
  else
    let texto := (strOfValue valor).data
    let t1 := (pyTrim texto).map pyUpper
    let t2 := quitar_tildes t1
    let t3 := t2.map replCode
    let t4 := collapseWs false t3
    String.mk (pyTrim t4)

/-- Keep-set as the specification words it: characters in
`[A-Z0-9 \-_.]` (space only, not arbitrary whitespace). -/
def keepSpec (c : Char) : Bool :=
  isUpperAZ c || isDigitCh c || c = ' ' || c = '-' || c = '_' || c = '.'

def replSpec (c : Char) : Char := if keepSpec c then c else ' '

/-- The concept normalizer as the specification describes it (trim,
uppercase, strip combining marks, replace characters outside
`[A-Z0-9 \-_.]` by a space, collapse whitespace runs, trim); used as the
spec-side of the refinement statement for `normalizar_concepto`. -/
def specNormalizeConcept (valor : Value) : String :=
  if pdIsna valor then ""
  else
    let texto := (strOfValue valor).data
    let t1 := (pyTrim texto).map pyUpper
    let t2 := quitar_tildes t1
    let t3 := t2.map replSpec
    let t4 := collapseWs false t3
    String.mk (pyTrim t4)

/-- `normalizar_monto` from `backend/normalizador.py`: null gives `none`;
numbers are absolute-valued and rounded to 2 decimals; text is stripped,
spaces removed, then if it has both `,` and `.` the dots are removed and
the comma becomes the decimal point, if it has only `,` the comma becomes
the decimal point; parse failure gives `none`. -/
def normalizar_monto (valor : Value) : Option PyNum :=
  if pdIsna valor then none
  else
    match valor with
    | Value.num q => some (round2 (qAbs q))
    | v =>
      let texto := pyTrim (strOfValue v).data
      if texto.isEmpty then none
      else
        let t := removeCh ' ' texto
        let t2 :=
          if t.contains ',' && t.contains '.' then
            (removeCh '.' t).map (fun c => if c = ',' then '.' else c)
          else if t.contains ',' then
            t.map (fun c => if c = ',' then '.' else c)
          else t
        (pyFloat t2).map (fun x => round2 (qAbs x))

/-! ## Concept similarity (`rapidfuzz.fuzz.token_sort_ratio`)

`token_sort_ratio(a, b)` splits both strings on whitespace, sorts the
tokens lexicographically, joins them with single spaces and computes the
normalized InDel similarity `200 * LCS / (len1 + len2)` on a 0–100
scale.  This is modelled below with a row-by-row longest-common-
subsequence dynamic program. -/

def lexLe : List Char → List Char → Bool
  | [], _ => true
  | _ :: _, [] => false
  | x :: xs, y :: ys =>
    if x.toNat < y.toNat then true
    else if y.toNat < x.toNat then false
    else lexLe xs ys

def insertSorted (x : List Char) : List (List Char) → List (List Char)
  | [] => [x]
  | y :: ys => if lexLe x y then x :: y :: ys else y :: insertSorted x ys

def sortTokens (l : List (List Char)) : List (List Char) :=
  l.foldr insertSorted []

def joinSp : List (List Char) → List Char
  | [] => []
  | [t] => t
  | t :: rest => t ++ ' ' :: joinSp rest

/-- One inner step of the LCS dynamic program: given the previous row
(suffix), the diagonal value and the value to the left, produce the rest
of the new row. -/
def lcsStepAux (ch : Char) : List Char → List Nat → Int → Int → List Nat
  | [], _, _, _ => []
  | bj :: bs, prow, diag, left =>
    let pj : Int := (prow.headD 0 : Nat)
    let nj : Int := if bj == ch then diag + 1 else max left pj
    nj.toNat :: lcsStepAux ch bs prow.tail pj nj

def lcsRowStep (ch : Char) (b : List Char) (prow : List Nat) : List Nat :=
  0 :: lcsStepAux ch b prow.tail ((prow.headD 0 : Nat) : Int) 0

/-- Length of a longest common subsequence. -/
def lcs (a b : List Char) : Nat :=
  (a.foldl (fun row c => lcsRowStep c b row)
    (List.replicate (b.length + 1) 0)).getLastD 0

/-- Normalized InDel similarity of two strings on the 0–100 scale
(`rapidfuzz` `ratio`). -/
def indelSim (x y : List Char) : PyNum :=
  if x.length + y.length = 0 then ⟨100, 1⟩
  else ⟨(200 * lcs x y : Nat), x.length + y.length⟩

def tokenSortPrep (s : String) : List Char :=
  joinSp (sortTokens (splitWs s.data))

/-- `_calcular_similitud_concepto` from `backend/conciliador.py`: 0 when
either concept is empty, otherwise `fuzz.token_sort_ratio`. -/
def calcular_similitud_concepto (a b : String) : PyNum :=
  if a.isEmpty || b.isEmpty then ⟨0, 1⟩
  else indelSim (tokenSortPrep a) (tokenSortPrep b)

/-! ## DataFrames and column inference (`conciliador.py`) -/

/-- A pandas DataFrame: named columns over a list of rows.  Cells beyond
a ragged row read as `null`. -/
structure DataFrame where
  headers : List String
  rows : List (List Value)
deriving DecidableEq

structure ColumnConfig where
  fecha : String
  concepto : String
  monto : String
deriving DecidableEq

def lowerStr (s : String) : String := String.mk (s.data.map pyLower)

/-- `cols_lower` lookup: the original name of the last column whose
lowercase form is `key` (a later duplicate key overwrites an earlier one
in the Python dict comprehension). -/
def colsLowerGet (hs : List String) (key : String) : Option String :=
  (hs.filter (fun h => lowerStr h == key)).getLast?

def errPrefix : String := "No se encontró ninguna de las columnas requeridas: "

def commaSep : String := ", "

/-- `buscar` from `_inferir_columnas`: first candidate present among the
lowercased column names wins; otherwise a `ValueError` whose message
carries the whole searched list. -/
def buscarCols (hs : List String) (posibles : List String) : Except String String :=
  match posibles.findSome? (fun cand => colsLowerGet hs cand) with
  | some h => Except.ok h
  | none => Except.error (errPrefix ++ String.intercalate commaSep posibles)

def fechaCands : List String :=
  [r"fecha", r"fecha gasto", r"fecha_contable", r"f_gasto", r"f_contable"]

def conceptoCands : List String :=
  [r"concepto", r"descripcion", r"detalle", r"concepto gasto", r"concepto contable"]

def montoCands : List String :=
  [r"monto", r"importe", r"valor", r"monto gasto", r"monto contable"]

/-- `_inferir_columnas` from `backend/conciliador.py`. -/
def inferir_columnas (df : DataFrame) : Except String ColumnConfig :=
  match buscarCols df.headers fechaCands with
  | Except.error e => Except.error e
  | Except.ok f =>
    match buscarCols df.headers conceptoCands with
    | Except.error e => Except.error e
    | Except.ok c =>
      match buscarCols df.headers montoCands with
      | Except.error e => Except.error e
      | Except.ok m => Except.ok ⟨f, c, m⟩

def hFecha : String := "fecha"
def hConcepto : String := "concepto"
def hMonto : String := "monto"
def hFechaNorm : String := "fecha_norm"
def hConceptoNorm : String := "concepto_norm"
def hMontoNorm : String := "monto_norm"
def hIdGasto : String := "id_gasto"
def hIdContable : String := "id_contable"

/-- Index of the first column with a given name (pandas label access
resolves to the first matching column). -/
def colIdx (hs : List String) (name : String) : Option Nat :=
  hs.findIdx? (fun h => h == name)

def cellAt (r : List Value) (i : Option Nat) : Value :=
  match i with
  | some j => r.getD j Value.null
  | none => Value.null

/-- `df.rename(columns={fecha: "fecha", concepto: "concepto",
monto: "monto"}, inplace=True)`. -/
def renameDf (cfg : ColumnConfig) (df : DataFrame) : DataFrame :=
  { df with
    headers := df.headers.map (fun h =>
      if h = cfg.fecha then hFecha
      else if h = cfg.concepto then hConcepto
      else if h = cfg.monto then hMonto
      else h) }

/-- `df[name] = df[...].apply(f)`: overwrite the column if it exists,
otherwise append it. -/
def addColDf (df : DataFrame) (name : String) (f : List Value → Value) : DataFrame :=
  match colIdx df.headers name with
  | some j => ⟨df.headers, df.rows.map (fun r => r.set j (f r))⟩
  | none => ⟨df.headers ++ [name], df.rows.map (fun r => r ++ [f r])⟩

def valueOfDateOpt : Option CalDate → Value
  | some d => Value.date d
  | none => Value.null

def valueOfNumOpt : Option PyNum → Value
  | some q => Value.num q
  | none => Value.null

def addFechaNorm (df : DataFrame) : DataFrame :=
  addColDf df hFechaNorm
    (fun r => valueOfDateOpt (normalizar_fecha (cellAt r (colIdx df.headers hFecha))))

def addConceptoNorm (df : DataFrame) : DataFrame :=
  addColDf df hConceptoNorm
    (fun r => Value.str (normalizar_concepto (cellAt r (colIdx df.headers hConcepto))))

def addMontoNorm (df : DataFrame) : DataFrame :=
  addColDf df hMontoNorm
    (fun r => valueOfNumOpt (normalizar_monto (cellAt r (colIdx df.headers hMonto))))

def withNorms (df : DataFrame) : DataFrame :=
  addMontoNorm (addConceptoNorm (addFechaNorm df))

def dateOfCell : Value → Option CalDate
  | Value.date d => some d
  | _ => none

def numOfCell : Value → Option PyNum
  | Value.num q => some q
  | _ => none

def strOfCell : Value → String
  | Value.str s => s
  | _ => ""

/-- A prepared record: the row projected onto the columns `conciliar`
reads. -/
structure Rec where
  fecha : Value
  concepto : Value
  monto : Value
  fecha_norm : Option CalDate
  concepto_norm : String
  monto_norm : Option PyNum
deriving DecidableEq

def recOfRow (hs : List String) (r : List Value) : Rec :=
  { fecha := cellAt r (colIdx hs hFecha)
    concepto := cellAt r (colIdx hs hConcepto)
    monto := cellAt r (colIdx hs hMonto)
    fecha_norm := dateOfCell (cellAt r (colIdx hs hFechaNorm))
    concepto_norm := strOfCell (cellAt r (colIdx hs hConceptoNorm))
    monto_norm := numOfCell (cellAt r (colIdx hs hMontoNorm)) }

/-- The row filter of `_preparar_dataframe`:
`fecha_norm` not NaT, `concepto_norm` nonempty, `monto_norm` not NaN —
reading the same cells `recOfRow` reads. -/
def validRowDf (hs : List String) (r : List Value) : Bool :=
  (recOfRow hs r).fecha_norm.isSome &&
  !((recOfRow hs r).concepto_norm.isEmpty) &&
  (recOfRow hs r).monto_norm.isSome

def validRec (r : Rec) : Bool :=
  r.fecha_norm.isSome && !(r.concepto_norm.isEmpty) && r.monto_norm.isSome

/-- `df = df[mask].reset_index(drop=True)`. -/
def filtrarDf (df : DataFrame) : DataFrame :=
  { df with rows := df.rows.filter (validRowDf df.headers) }

/-- Frame-level `_preparar_dataframe` from `backend/conciliador.py`:
infer columns, rename, add the three normalized columns, filter rows. -/
def prepDf (df : DataFrame) : Except String DataFrame :=
  match inferir_columnas df with
  | Except.error e => Except.error e
  | Except.ok cfg => Except.ok (filtrarDf (withNorms (renameDf cfg df)))

def recsOfDf (df : DataFrame) : List Rec :=
  df.rows.map (recOfRow df.headers)

/-- `_preparar_dataframe` as the record collection `conciliar` works on. -/
def preparar_dataframe (df : DataFrame) : Except String (List Rec) :=
  match prepDf df with
  | Except.error e => Except.error e
  | Except.ok d => Except.ok (recsOfDf d)

/-! ## The matcher (`conciliar`)

`conciliar` is embedded with an instrumented output: each appended result
row also records which `id_gasto` / `id_contable` produced it (these are
exactly the arguments of `registrar_match` in the source), so that the
outcome-coverage properties can be stated.  The rendered row fields are
the ones the source writes. -/

structure MatchCfg where
  ventana_dias_posible : Int
  umbral_conciliado : PyNum
  umbral_posible_min : PyNum
  umbral_posible_max : PyNum
deriving DecidableEq

/-- The default configuration of `conciliar`:
`ventana_dias_posible=3`, `umbral_conciliado=90.0`,
`umbral_posible_min=70.0`, `umbral_posible_max=89.99`. -/
def defaultCfg : MatchCfg := ⟨3, ⟨90, 1⟩, ⟨70, 1⟩, ⟨8999, 100⟩⟩

/-- One row of the unified result (`resultados`). -/
structure ResRow where
  fechaGasto : Option CalDate
  conceptoGasto : Value
  montoGasto : Option PyNum
  fechaContable : Option CalDate
  conceptoContable : Value
  montoContable : Option PyNum
  estado : String
  observaciones : String
deriving DecidableEq

/-- A result row together with the record ids that produced it. -/
structure TraceEntry where
  idGasto : Option Nat
  idContable : Option Nat
  row : ResRow
deriving DecidableEq

structure MState where
  res : List TraceEntry
  usados : List Nat
deriving DecidableEq

def eConciliado : String := "Conciliado"
def ePosible : String := "Posible"
def eNoConc : String := "No conciliado"
def obsNoConcG : String := "No se encontró registro contable coincidente."
def obsNoConcC : String := "Registro contable sin gasto asociado."

def obsConciliado (sim : PyNum) : String :=
  "Similitud concepto " ++ String.mk (fmt1 sim) ++ "%"

def obsPosible (ventana : Int) (sim : PyNum) : String :=
  "Fecha dentro de ±" ++ String.mk (intDigits ventana) ++
  " días, similitud " ++ String.mk (fmt1 sim) ++ "%"

def defRec : Rec := ⟨Value.null, Value.null, Value.null, none, "", none⟩

/-- `gastos.loc[gastos["id_gasto"] == id].iloc[0]`: the first row with
that id (ids are unique positions, so this is the row itself). -/
def lookupId (l : List (Nat × Rec)) (i : Nat) : Rec :=
  ((l.find? (fun p => p.1 == i)).getD (0, defRec)).2

/-- `registrar_match` from `conciliar`: look the rows up by id, mark the
contable id as used, and append one unified result row. -/
def registrar_match (gastosE contableE : List (Nat × Rec)) (st : MState)
    (idG : Nat) (idC : Option Nat) (estado obs : String) : MState :=
  let g := lookupId gastosE idG
  match idC with
  | some j =>
    let c := lookupId contableE j
    { res := st.res ++ [⟨some idG, some j,
        ⟨g.fecha_norm, g.concepto, g.monto_norm,
         c.fecha_norm, c.concepto, c.monto_norm, estado, obs⟩⟩],
      usados := j :: st.usados }
  | none =>
    { res := st.res ++ [⟨some idG, none,
        ⟨g.fecha_norm, g.concepto, g.monto_norm,
         none, Value.null, none, estado, obs⟩⟩],
      usados := st.usados }

/-- Timestamp equality on `fecha_norm` cells (`==` on a datetime column):
instants compare by day number, `NaT` compares unequal to everything. -/
def dateEqPy (a b : Option CalDate) : Bool :=
  match a, b with
  | some x, some y => decide (rdOf x = rdOf y)
  | _, _ => false

/-- Float equality on `monto_norm` cells; `NaN` compares unequal. -/
def montoEqPy (a b : Option PyNum) : Bool :=
  match a, b with
  | some x, some y => qEqB x y
  | _, _ => false

def dateGePy (a : Option CalDate) (bound : Int) : Bool :=
  match a with
  | some x => decide (bound ≤ rdOf x)
  | none => false

def dateLePy (a : Option CalDate) (bound : Int) : Bool :=
  match a with
  | some x => decide (rdOf x ≤ bound)
  | none => false

/-- The best-candidate scan: iterate the candidates in order keeping the
strictly greatest similarity (`mejor_sim` starts at `-1.0`). -/
def mejorCandidato (gn : String) (cands : List (Nat × Rec)) : Option Nat × PyNum :=
  cands.foldl (fun acc p =>
    let sim := calcular_similitud_concepto gn p.2.concepto_norm
    if qLt acc.2 sim then (some p.1, sim) else acc) (none, ⟨-1, 1⟩)

/-- Loop body of paso 1 for one gasto row. -/
def paso1Step (gastosE contableE : List (Nat × Rec)) (cfg : MatchCfg)
    (st : MState) (p : Nat × Rec) : MState :=
  let cands := contableE.filter (fun c =>
    !(st.usados.contains c.1) &&
    dateEqPy c.2.fecha_norm p.2.fecha_norm &&
    montoEqPy c.2.monto_norm p.2.monto_norm)
  if cands.isEmpty then st
  else
    let mej := mejorCandidato p.2.concepto_norm cands
    match mej.1 with
    | some j =>
      if qLe cfg.umbral_conciliado mej.2 then
        registrar_match gastosE contableE st p.1 (some j) eConciliado
          (obsConciliado mej.2)
      else st
    | none => st

/-- Paso 1 of `conciliar`: exact date and amount, best similarity at
least `umbral_conciliado` emits `Conciliado`. -/
def paso1 (gastosE contableE : List (Nat × Rec)) (cfg : MatchCfg)
    (st : MState) : MState :=
  gastosE.foldl (paso1Step gastosE contableE cfg) st

/-- The (buggy) identification of already-matched gastos: for a result
row's gasto date, the index of the FIRST gasto row carrying that
normalized date (`gastos[gastos["fecha_norm"].dt.date == fg].index[0]`). -/
def firstIdxByDate (gastosE : List (Nat × Rec)) (fg : Option CalDate) : Option Nat :=
  (gastosE.find? (fun p => dateEqPy p.2.fecha_norm fg)).map (fun p => p.1)

/-- Paso 2 pending set: gastos whose id is not the first index of any
already-recorded gasto date. -/
def gastosPendientes (gastosE : List (Nat × Rec)) (res : List TraceEntry) :
    List (Nat × Rec) :=
  let excl := res.filterMap (fun e => firstIdxByDate gastosE e.row.fechaGasto)
  gastosE.filter (fun p => p.2.fecha_norm.isSome && !(excl.contains p.1))

/-- Loop body of paso 2 for one pending gasto row. -/
def paso2Step (gastosE contableE : List (Nat × Rec)) (cfg : MatchCfg)
    (st : MState) (p : Nat × Rec) : MState :=
  let gRd := match p.2.fecha_norm with
    | some d => rdOf d
    | none => 0
  let fmin := gRd - cfg.ventana_dias_posible
  let fmax := gRd + cfg.ventana_dias_posible
  let cands := contableE.filter (fun c =>
    !(st.usados.contains c.1) &&
    dateGePy c.2.fecha_norm fmin &&
    dateLePy c.2.fecha_norm fmax &&
    montoEqPy c.2.monto_norm p.2.monto_norm)
  if cands.isEmpty then st
  else
    let mej := mejorCandidato p.2.concepto_norm cands
    match mej.1 with
    | some j =>
      if qLe cfg.umbral_posible_min mej.2 && qLe mej.2 cfg.umbral_posible_max then
        registrar_match gastosE contableE st p.1 (some j) ePosible
          (obsPosible cfg.ventana_dias_posible mej.2)
      else st
    | none => st

/-- Paso 2 of `conciliar`: date within `± ventana_dias_posible`, equal
amount, best similarity inside `[umbral_posible_min, umbral_posible_max]`
emits `Posible`. -/
def paso2 (gastosE contableE : List (Nat × Rec)) (cfg : MatchCfg)
    (st : MState) : MState :=
  (gastosPendientes gastosE st.res).foldl (paso2Step gastosE contableE cfg) st

/-- Loop body of paso 3 for one gasto row. -/
def paso3Step (gastosE contableE : List (Nat × Rec)) (concIds : List Nat)
    (st : MState) (p : Nat × Rec) : MState :=
  if concIds.contains p.1 then st
  else registrar_match gastosE contableE st p.1 none eNoConc obsNoConcG

/-- Paso 3 of `conciliar`: every gasto whose id is not (mis)identified as
matched via the first-index-by-date set is recorded `No conciliado`. -/
def paso3 (gastosE contableE : List (Nat × Rec)) (st : MState) : MState :=
  let concIds := st.res.filterMap (fun e => firstIdxByDate gastosE e.row.fechaGasto)
  gastosE.foldl (paso3Step gastosE contableE concIds) st

/-- Loop body of paso 4 for one contable row. -/
def paso4Step (st : MState) (p : Nat × Rec) : MState :=
  if st.usados.contains p.1 then st
  else
    { st with res := st.res ++ [⟨none, some p.1,
        ⟨none, Value.null, none,
         p.2.fecha_norm, p.2.concepto, p.2.monto_norm,
         eNoConc, obsNoConcC⟩⟩] }

/-- Paso 4 of `conciliar`: leftover contables are appended directly. -/
def paso4 (contableE : List (Nat × Rec)) (st : MState) : MState :=
  contableE.foldl paso4Step st

/-- The four passes over the prepared collections, ids being the
positions assigned by `gastos["id_gasto"] = gastos.index` (resp.
`id_contable`). -/
def conciliarCore (gastos contable : List Rec) (cfg : MatchCfg) :
    List TraceEntry :=
  let gE := gastos.enum
  let cE := contable.enum
  let st1 := paso1 gE cE cfg ⟨[], []⟩
  let st2 := paso2 gE cE cfg st1
  let st3 := paso3 gE cE st2
  (paso4 cE st3).res

/-- The `KeyError` pandas raises at
`df_resultado[columnas_orden]` when `resultados` is empty:
`pd.DataFrame([])` has no columns, so selecting the eight result columns
fails. -/
def keyErrorMsg : String :=
  "KeyError: ninguna de las columnas de resultado existe en el DataFrame vacío"

/-- `conciliar` from `backend/conciliador.py`: prepare both frames
(errors propagate), run the four passes, and build the final frame —
which raises a `KeyError` when no result row was produced. -/
def conciliar (gastos_df contable_df : DataFrame) (cfg : MatchCfg) :
    Except String (List TraceEntry) :=
  match preparar_dataframe gastos_df with
  | Except.error e => Except.error e
  | Except.ok gastos =>
    match preparar_dataframe contable_df with
    | Except.error e => Except.error e
    | Except.ok contable =>
      let res := conciliarCore gastos contable cfg
      if res.isEmpty then Except.error keyErrorMsg else Except.ok res

/-! ## Heap model of `conciliar`'s mutation structure

To state that `conciliar` does not mutate its argument frames, the data
frame objects live in an explicit heap; `df.copy()` allocates, in-place
operations (`rename(..., inplace=True)`, column assignment) write to the
ref they are invoked on, and plain rebinding allocates a fresh object. -/

def dfEmpty : DataFrame := ⟨[], []⟩

abbrev Heap := List DataFrame

def hGet (h : Heap) (r : Nat) : DataFrame := h.getD r dfEmpty

def hSet (h : Heap) (r : Nat) (d : DataFrame) : Heap := h.set r d

def hAlloc (h : Heap) (d : DataFrame) : Heap × Nat := (h ++ [d], h.length)

/-- `_preparar_dataframe` on the heap: copy the input frame, then rename
and add the three normalized columns in place on the copy, and bind the
filtered frame as a fresh object.  The input ref is never written. -/
def preparar_dataframe_heap (h : Heap) (r : Nat) : Heap × Except String Nat :=
  let df := hGet h r
  match inferir_columnas df with
  | Except.error e => (h, Except.error e)
  | Except.ok cfg =>
    let a1 := hAlloc h df
    let d1 := renameDf cfg df
    let h2 := hSet a1.1 a1.2 d1
    let d2 := addFechaNorm d1
    let h3 := hSet h2 a1.2 d2
    let d3 := addConceptoNorm d2
    let h4 := hSet h3 a1.2 d3
    let d4 := addMontoNorm d3
    let h5 := hSet h4 a1.2 d4
    let a2 := hAlloc h5 (filtrarDf d4)
    (a2.1, Except.ok a2.2)

/-- `gastos["id_gasto"] = gastos.index` (resp. contable): in-place column
assignment of the positional index. -/
def addIdCol (df : DataFrame) (name : String) : DataFrame :=
  match colIdx df.headers name with
  | some j => ⟨df.headers, df.rows.enum.map (fun p => p.2.set j (Value.num (qOfNat p.1)))⟩
  | none => ⟨df.headers ++ [name], df.rows.enum.map (fun p => p.2 ++ [Value.num (qOfNat p.1)])⟩

/-- `conciliar` on the heap: prepare both frames (writing only to fresh
refs), assign the id columns in place on the prepared frames, then run
the pure matching passes. -/
def conciliar_heap (h : Heap) (g c : Nat) (cfg : MatchCfg) :
    Heap × Except String (List TraceEntry) :=
  match preparar_dataframe_heap h g with
  | (h1, Except.error e) => (h1, Except.error e)
  | (h1, Except.ok rg) =>
    match preparar_dataframe_heap h1 c with
    | (h2, Except.error e) => (h2, Except.error e)
    | (h2, Except.ok rc) =>
      let h3 := hSet h2 rg (addIdCol (hGet h2 rg) hIdGasto)
      let h4 := hSet h3 rc (addIdCol (hGet h3 rc) hIdContable)
      let res := conciliarCore (recsOfDf (hGet h4 rg)) (recsOfDf (hGet h4 rc)) cfg
      if res.isEmpty then (h4, Except.error keyErrorMsg) else (h4, Except.ok res)

deriving instance DecidableEq for Except

/-! ## Generic list lemmas -/

theorem foldl_inv {α σ : Type} (f : σ → α → σ) (Q : σ → Prop) :
    ∀ (l : List α), (∀ st a, a ∈ l → Q st → Q (f st a)) →
      ∀ st, Q st → Q (l.foldl f st)
  | [], _, _, h => h
  | a :: l, hstep, st, h => by
    simp only [List.foldl]
    exact foldl_inv f Q l
      (fun st b hb hq => hstep st b (List.mem_cons_of_mem a hb) hq)
      (f st a) (hstep st a (List.mem_cons_self a l) h)

theorem mem_enumFrom_get? {α : Type} :
    ∀ (l : List α) (n : Nat) (p : Nat × α), p ∈ l.enumFrom n →
      n ≤ p.1 ∧ l.get? (p.1 - n) = some p.2 := by
  intro l
  induction l with
  | nil => intro n p hp; simp [List.enumFrom] at hp
  | cons a l ih =>
    intro n p hp
    simp only [List.enumFrom, List.mem_cons] at hp
    rcases hp with hp | hp
    · subst hp
      simp
    · obtain ⟨h1, h2⟩ := ih (n + 1) p hp
      refine ⟨by omega, ?_⟩
      have hd : p.1 - n = (p.1 - (n + 1)) + 1 := by omega
      rw [hd]
      simpa using h2

theorem mem_enum_get? {α : Type} (l : List α) (p : Nat × α)
    (hp : p ∈ l.enum) : l.get? p.1 = some p.2 := by
  have := mem_enumFrom_get? l 0 p hp
  simpa using this.2

theorem filter_map_swap {α β : Type} (f : α → β) (q : β → Bool) :
    ∀ l : List α, (l.filter (fun a => q (f a))).map f = (l.map f).filter q := by
  intro l
  induction l with
  | nil => rfl
  | cons a l ih =>
    by_cases h : q (f a) = true <;>
      simp [List.filter_cons, h, ih]

theorem getD_append_lt {α : Type} (x d : α) :
    ∀ (l : List α) (i : Nat), i < l.length → (l ++ [x]).getD i d = l.getD i d := by
  intro l
  induction l with
  | nil => intro i hi; simp at hi
  | cons a l ih =>
    intro i hi
    cases i with
    | zero => rfl
    | succ i =>
      simp only [List.cons_append, List.getD_cons_succ]
      exact ih i (by simpa using hi)

theorem getD_set_ne {α : Type} (x d : α) :
    ∀ (l : List α) (j i : Nat), i ≠ j → (l.set j x).getD i d = l.getD i d := by
  intro l
  induction l with
  | nil => intro j i _; simp [List.set]
  | cons a l ih =>
    intro j i hij
    cases j with
    | zero =>
      cases i with
      | zero => exact absurd rfl hij
      | succ i => simp [List.set]
    | succ j =>
      cases i with
      | zero => simp [List.set]
      | succ i =>
        simp only [List.set, List.getD_cons_succ]
        exact ih j i (by omega)

/-! ## Equivalence of the two concept-normalizer replacement sets

The source regex keeps every whitespace character (`\s`) and collapses it
later, while the specification's wording replaces everything but a plain
space before collapsing; the results coincide. -/

theorem isPyWs_space : isPyWs ' ' = true := by decide

theorem repl_rel (c : Char) :
    isPyWs (replCode c) = isPyWs (replSpec c) ∧
      (isPyWs (replCode c) = false → replCode c = replSpec c) := by
  by_cases hw : isPyWs c = true
  · unfold replCode replSpec keepCode keepSpec
    by_cases hsp : c = ' '
    · subst hsp
      simp
    · by_cases hu : isUpperAZ c = true
      · simp [hu, hw]
      · by_cases hd : isDigitCh c = true
        · simp [hu, hd, hw]
        · by_cases h1 : c = '-'
          · exact absurd hw (by subst h1; decide)
          · by_cases h2 : c = '_'
            · exact absurd hw (by subst h2; decide)
            · by_cases h3 : c = '.'
              · exact absurd hw (by subst h3; decide)
              · simp [hu, hd, hw, h1, h2, h3, hsp, isPyWs_space]
  · have hw' : isPyWs c = false := by simpa using hw
    unfold replCode replSpec keepCode keepSpec
    by_cases hsp : c = ' '
    · exact absurd hw' (by subst hsp; decide)
    · by_cases hu : isUpperAZ c = true
      · simp [hu, hw']
      · by_cases hd : isDigitCh c = true
        · simp [hu, hd, hw']
        · by_cases h1 : c = '-'
          · simp [hu, hd, hw', h1]
          · by_cases h2 : c = '_'
            · simp [hu, hd, h1, hw', h2]
            · by_cases h3 : c = '.'
              · simp [hu, hd, h1, h2, hw', h3]
              · simp [hu, hd, hw', h1, h2, h3, hsp, isPyWs_space]

theorem collapse_map_eq :
    ∀ (l : List Char) (b : Bool),
      collapseWs b (l.map replCode) = collapseWs b (l.map replSpec) := by
  intro l
  induction l with
  | nil => intro b; rfl
  | cons c l ih =>
    intro b
    obtain ⟨h1, h2⟩ := repl_rel c
    simp only [List.map]
    by_cases hws : isPyWs (replCode c) = true
    · have hws' : isPyWs (replSpec c) = true := by rw [← h1]; exact hws
      cases b <;> simp [collapseWs, hws, hws', ih]
    · have hws0 : isPyWs (replCode c) = false := by simpa using hws
      have heq : replCode c = replSpec c := h2 hws0
      have hws' : isPyWs (replSpec c) = false := by rw [← h1]; exact hws0
      cases b <;> simp [collapseWs, hws0, hws', heq, ih]

/-! ## Facts about the matcher's candidate comparisons -/

theorem qEqB_symm {x y : PyNum} (h : qEqB x y = true) : qEqB y x = true := by
  simp only [qEqB, beq_iff_eq] at h ⊢
  omega

theorem montoEqPy_elim {a b : Option PyNum} (h : montoEqPy a b = true) :
    ∃ x y, a = some x ∧ b = some y ∧ qEqB x y = true := by
  cases a with
  | none => simp [montoEqPy] at h
  | some x =>
    cases b with
    | none => simp [montoEqPy] at h
    | some y => exact ⟨x, y, rfl, rfl, h⟩

theorem dateEqPy_elim {a b : Option CalDate} (h : dateEqPy a b = true) :
    ∃ x y, a = some x ∧ b = some y ∧ rdOf x = rdOf y := by
  cases a with
  | none => simp [dateEqPy] at h
  | some x =>
    cases b with
    | none => simp [dateEqPy] at h
    | some y =>
      refine ⟨x, y, rfl, rfl, ?_⟩
      simpa [dateEqPy] using h

theorem dateGePy_elim {a : Option CalDate} {bound : Int}
    (h : dateGePy a bound = true) : ∃ x, a = some x ∧ bound ≤ rdOf x := by
  cases a with
  | none => simp [dateGePy] at h
  | some x =>
    refine ⟨x, rfl, ?_⟩
    simpa [dateGePy] using h

theorem dateLePy_elim {a : Option CalDate} {bound : Int}
    (h : dateLePy a bound = true) : ∃ x, a = some x ∧ rdOf x ≤ bound := by
  cases a with
  | none => simp [dateLePy] at h
  | some x =>
    refine ⟨x, rfl, ?_⟩
    simpa [dateLePy] using h

theorem mejorAux {gn : String} :
    ∀ (cands : List (Nat × Rec)) (acc : Option Nat × PyNum) (j : Nat),
      (cands.foldl (fun acc p =>
        let sim := calcular_similitud_concepto gn p.2.concepto_norm
        if qLt acc.2 sim then (some p.1, sim) else acc) acc).1 = some j →
      acc.1 = some j ∨ ∃ c, (j, c) ∈ cands := by
  intro cands
  induction cands with
  | nil => intro acc j h; exact Or.inl h
  | cons p cs ih =>
    intro acc j h
    simp only [List.foldl] at h
    rcases ih _ j h with hstep | ⟨c, hc⟩
    · by_cases hlt :
        qLt acc.2 (calcular_similitud_concepto gn p.2.concepto_norm) = true
      · simp only [hlt, if_true] at hstep
        obtain ⟨a, b⟩ := p
        simp only at hstep
        refine Or.inr ⟨b, ?_⟩
        have : a = j := by simpa using hstep
        subst this
        exact List.mem_cons_self _ _
      · rw [if_neg hlt] at hstep
        exact Or.inl hstep
    · exact Or.inr ⟨c, List.mem_cons_of_mem p hc⟩

theorem mejorCandidato_mem (gn : String) (cands : List (Nat × Rec)) (j : Nat)
    (h : (mejorCandidato gn cands).1 = some j) : ∃ c, (j, c) ∈ cands := by
  unfold mejorCandidato at h
  rcases mejorAux cands _ j h with habs | hres
  · simp at habs
  · exact hres

/-! ## The pairing properties of emitted outcomes (C2 invariant) -/

/-- Both paired records carry dates and they are the same instant. -/
def matchedDates (g c : Rec) : Prop :=
  ∃ a b, g.fecha_norm = some a ∧ c.fecha_norm = some b ∧ rdOf a = rdOf b

/-- Both paired records carry dates within the window. -/
def windowDates (v : Int) (g c : Rec) : Prop :=
  ∃ a b, g.fecha_norm = some a ∧ c.fecha_norm = some b ∧ |rdOf a - rdOf b| ≤ v

/-- Both paired records carry amounts and they are float-equal. -/
def sameAmount (g c : Rec) : Prop :=
  ∃ qg qc, g.monto_norm = some qg ∧ c.monto_norm = some qc ∧ qEqB qg qc = true

/-- The entry pairs a statement record and a ledger record (resolved by
position) satisfying equal amounts and the given date condition. -/
def pairedOk (recsG recsC : List Rec) (e : TraceEntry)
    (dcond : Rec → Rec → Prop) : Prop :=
  ∃ i j g c, e.idGasto = some i ∧ e.idContable = some j ∧
    recsG.get? i = some g ∧ recsC.get? j = some c ∧
    sameAmount g c ∧ dcond g c

/-- The per-entry property of claim C2. -/
def outcomeOk (recsG recsC : List Rec) (v : Int) (e : TraceEntry) : Prop :=
  (e.row.estado = eConciliado → pairedOk recsG recsC e matchedDates) ∧
  (e.row.estado = ePosible → pairedOk recsG recsC e (windowDates v))

def InvOk (recsG recsC : List Rec) (v : Int) (st : MState) : Prop :=
  ∀ e ∈ st.res, outcomeOk recsG recsC v e

theorem paso1Step_inv (recsG recsC : List Rec) (cfg : MatchCfg) (st : MState)
    (p : Nat × Rec) (hp : p ∈ recsG.enum)
    (hq : InvOk recsG recsC cfg.ventana_dias_posible st) :
    InvOk recsG recsC cfg.ventana_dias_posible
      (paso1Step recsG.enum recsC.enum cfg st p) := by
  unfold paso1Step
  dsimp only
  split
  · exact hq
  · split
    · rename_i j hj
      split
      · rename_i hthr
        obtain ⟨crec, hcmem⟩ := mejorCandidato_mem _ _ _ hj
        rw [List.mem_filter] at hcmem
        obtain ⟨hcE, hpred⟩ := hcmem
        simp only [Bool.and_eq_true] at hpred
        obtain ⟨⟨hused, hdate⟩, hmonto⟩ := hpred
        have hgg : recsG.get? p.1 = some p.2 := mem_enum_get? _ _ hp
        have hcc : recsC.get? j = some crec := mem_enum_get? _ _ hcE
        intro e he
        simp only [registrar_match, List.mem_append, List.mem_singleton] at he
        rcases he with he | he
        · exact hq e he
        · subst he
          constructor
          · intro _
            obtain ⟨x, y, hcx, hpy, hqe⟩ := montoEqPy_elim hmonto
            obtain ⟨a, b, hca, hpb, hrd⟩ := dateEqPy_elim hdate
            exact ⟨p.1, j, p.2, crec, rfl, rfl, hgg, hcc,
              ⟨y, x, hpy, hcx, qEqB_symm hqe⟩,
              ⟨b, a, hpb, hca, hrd.symm⟩⟩
          · intro hco
            exact absurd (show eConciliado = ePosible from hco) (by decide)
      · exact hq
    · exact hq

theorem paso2Step_inv (recsG recsC : List Rec) (cfg : MatchCfg) (st : MState)
    (p : Nat × Rec) (hpE : p ∈ recsG.enum) (hsome : p.2.fecha_norm.isSome = true)
    (hq : InvOk recsG recsC cfg.ventana_dias_posible st) :
    InvOk recsG recsC cfg.ventana_dias_posible
      (paso2Step recsG.enum recsC.enum cfg st p) := by
  obtain ⟨gd, hgd⟩ := Option.isSome_iff_exists.mp hsome
  unfold paso2Step
  dsimp only
  rw [hgd]
  split
  · exact hq
  · split
    · rename_i j hj
      split
      · rename_i hthr
        obtain ⟨crec, hcmem⟩ := mejorCandidato_mem _ _ _ hj
        rw [List.mem_filter] at hcmem
        obtain ⟨hcE, hpred⟩ := hcmem
        simp only [Bool.and_eq_true] at hpred
        obtain ⟨⟨⟨hused, hge⟩, hle⟩, hmonto⟩ := hpred
        have hgg : recsG.get? p.1 = some p.2 := mem_enum_get? _ _ hpE
        have hcc : recsC.get? j = some crec := mem_enum_get? _ _ hcE
        intro e he
        simp only [registrar_match, List.mem_append, List.mem_singleton] at he
        rcases he with he | he
        · exact hq e he
        · subst he
          constructor
          · intro hco
            exact absurd (show ePosible = eConciliado from hco) (by decide)
          · intro _
            obtain ⟨x, y, hcx, hpy, hqe⟩ := montoEqPy_elim hmonto
            obtain ⟨cd, hccd, hge'⟩ := dateGePy_elim hge
            obtain ⟨cd', hccd', hle'⟩ := dateLePy_elim hle
            rw [hccd] at hccd'
            injection hccd' with hcd
            subst hcd
            refine ⟨p.1, j, p.2, crec, rfl, rfl, hgg, hcc,
              ⟨y, x, hpy, hcx, qEqB_symm hqe⟩,
              ⟨gd, cd, hgd, hccd, ?_⟩⟩
            rw [abs_le]
            omega
      · exact hq
    · exact hq

theorem paso3Step_inv (recsG recsC : List Rec) (v : Int) (concIds : List Nat)
    (st : MState) (p : Nat × Rec)
    (hq : InvOk recsG recsC v st) :
    InvOk recsG recsC v (paso3Step recsG.enum recsC.enum concIds st p) := by
  unfold paso3Step
  split
  · exact hq
  · intro e he
    simp only [registrar_match, List.mem_append, List.mem_singleton] at he
    rcases he with he | he
    · exact hq e he
    · subst he
      exact ⟨fun hco => absurd (show eNoConc = eConciliado from hco) (by decide),
        fun hco => absurd (show eNoConc = ePosible from hco) (by decide)⟩

theorem paso4Step_inv (recsG recsC : List Rec) (v : Int)
    (st : MState) (p : Nat × Rec)
    (hq : InvOk recsG recsC v st) :
    InvOk recsG recsC v (paso4Step st p) := by
  unfold paso4Step
  split
  · exact hq
  · intro e he
    simp only [List.mem_append, List.mem_singleton] at he
    rcases he with he | he
    · exact hq e he
    · subst he
      exact ⟨fun hco => absurd (show eNoConc = eConciliado from hco) (by decide),
        fun hco => absurd (show eNoConc = ePosible from hco) (by decide)⟩

theorem conciliarCore_outcomeOk (recsG recsC : List Rec) (cfg : MatchCfg) :
    ∀ e ∈ conciliarCore recsG recsC cfg,
      outcomeOk recsG recsC cfg.ventana_dias_posible e := by
  unfold conciliarCore
  dsimp only
  have h0 : InvOk recsG recsC cfg.ventana_dias_posible ⟨[], []⟩ := by
    intro e he; simp at he
  have h1 := foldl_inv (paso1Step recsG.enum recsC.enum cfg)
    (InvOk recsG recsC cfg.ventana_dias_posible) recsG.enum
    (fun st a ha hq => paso1Step_inv recsG recsC cfg st a ha hq) _ h0
  have h2 := foldl_inv (paso2Step recsG.enum recsC.enum cfg)
    (InvOk recsG recsC cfg.ventana_dias_posible)
    (gastosPendientes recsG.enum
      (paso1 recsG.enum recsC.enum cfg ⟨[], []⟩).res)
    (fun st a ha hq => by
      unfold gastosPendientes at ha
      rw [List.mem_filter] at ha
      obtain ⟨haE, hflt⟩ := ha
      simp only [Bool.and_eq_true] at hflt
      exact paso2Step_inv recsG recsC cfg st a haE hflt.1 hq) _ h1
  have h3 := foldl_inv
    (paso3Step recsG.enum recsC.enum
      ((paso2 recsG.enum recsC.enum cfg
        (paso1 recsG.enum recsC.enum cfg ⟨[], []⟩)).res.filterMap
        (fun e => firstIdxByDate recsG.enum e.row.fechaGasto)))
    (InvOk recsG recsC cfg.ventana_dias_posible) recsG.enum
    (fun st a _ hq => paso3Step_inv recsG recsC _ _ st a hq) _ h2
  have h4 := foldl_inv paso4Step
    (InvOk recsG recsC cfg.ventana_dias_posible) recsC.enum
    (fun st a _ hq => paso4Step_inv recsG recsC _ st a hq) _ h3
  exact h4

/-! ## Heap preservation (C10) -/

theorem preparar_heap_pres (h : Heap) (r : Nat) :
    (∀ i, i < h.length → hGet (preparar_dataframe_heap h r).1 i = hGet h i) ∧
    h.length ≤ (preparar_dataframe_heap h r).1.length ∧
    (∀ r2, (preparar_dataframe_heap h r).2 = Except.ok r2 → h.length ≤ r2) := by
  unfold preparar_dataframe_heap
  dsimp only
  cases hinf : inferir_columnas (hGet h r) with
  | error e =>
    exact ⟨fun i _ => rfl, Nat.le_refl _, fun r2 hr2 => by cases hr2⟩
  | ok cfg =>
    dsimp only [hAlloc, hSet, hGet]
    refine ⟨?_, ?_, ?_⟩
    · intro i hi
      rw [getD_append_lt _ _ _ i
        (by simp only [List.length_set, List.length_append, List.length_cons,
              List.length_nil]; omega)]
      rw [getD_set_ne _ _ _ _ i (by omega), getD_set_ne _ _ _ _ i (by omega),
        getD_set_ne _ _ _ _ i (by omega), getD_set_ne _ _ _ _ i (by omega)]
      exact getD_append_lt _ _ _ i hi
    · simp
    · intro r2 hr2
      injection hr2 with h'
      simp only [List.length_set, List.length_append, List.length_cons,
        List.length_nil] at h'
      omega

theorem conciliar_heap_pres (h : Heap) (g c : Nat) (cfg : MatchCfg)
    (hg : g < h.length) (hc : c < h.length) :
    hGet (conciliar_heap h g c cfg).1 g = hGet h g ∧
    hGet (conciliar_heap h g c cfg).1 c = hGet h c := by
  obtain ⟨hP1a, hP1b, hP1c⟩ := preparar_heap_pres h g
  unfold conciliar_heap
  rcases hp1 : preparar_dataframe_heap h g with ⟨h1, res1⟩
  rw [hp1] at hP1a hP1b hP1c
  dsimp only at hP1a hP1b hP1c
  cases res1 with
  | error e =>
    exact ⟨hP1a g hg, hP1a c hc⟩
  | ok rg =>
    have hrg : h.length ≤ rg := hP1c rg rfl
    obtain ⟨hP2a, hP2b, hP2c⟩ := preparar_heap_pres h1 c
    rcases hp2 : preparar_dataframe_heap h1 c with ⟨h2, res2⟩
    rw [hp2] at hP2a hP2b hP2c
    dsimp only at hP2a hP2b hP2c
    dsimp only
    rw [hp2]
    have hgl1 : g < h1.length := by omega
    have hcl1 : c < h1.length := by omega
    cases res2 with
    | error e =>
      exact ⟨(hP2a g hgl1).trans (hP1a g hg), (hP2a c hcl1).trans (hP1a c hc)⟩
    | ok rc =>
      have hrc : h1.length ≤ rc := hP2c rc rfl
      dsimp only [hSet, hGet]
      have hgoal : ∀ i, i < h.length →
          ((((h2.set rg (addIdCol (h2.getD rg dfEmpty) hIdGasto)).set rc
            (addIdCol ((h2.set rg (addIdCol (h2.getD rg dfEmpty) hIdGasto)).getD rc dfEmpty)
              hIdContable))).getD i dfEmpty) = h.getD i dfEmpty := by
        intro i hi
        rw [getD_set_ne _ _ _ _ i (by omega), getD_set_ne _ _ _ _ i (by omega)]
        have h2i : h2.getD i dfEmpty = h1.getD i dfEmpty := hP2a i (by omega)
        have h1i : h1.getD i dfEmpty = h.getD i dfEmpty := hP1a i hi
        rw [h2i, h1i]
      constructor
      · split
        · exact hgoal g hg
        · exact hgoal g hg
      · split
        · exact hgoal c hc
        · exact hgoal c hc

/-! ## Column-inference error propagation (C3) and builder equations (C4) -/

theorem buscarCols_error (hs posibles : List String) (m : String)
    (h : buscarCols hs posibles = Except.error m) :
    m = errPrefix ++ String.intercalate commaSep posibles := by
  unfold buscarCols at h
  cases hf : posibles.findSome? (fun cand => colsLowerGet hs cand) with
  | none =>
    rw [hf] at h
    injection h with h'
    exact h'.symm
  | some v => rw [hf] at h; cases h

theorem inferir_error_msg (df : DataFrame) (m : String)
    (h : inferir_columnas df = Except.error m) :
    ∃ names, (names = fechaCands ∨ names = conceptoCands ∨ names = montoCands) ∧
      m = errPrefix ++ String.intercalate commaSep names := by
  unfold inferir_columnas at h
  cases hf : buscarCols df.headers fechaCands with
  | error e =>
    rw [hf] at h
    injection h with h'
    subst h'
    exact ⟨fechaCands, Or.inl rfl, buscarCols_error _ _ _ hf⟩
  | ok f =>
    rw [hf] at h
    cases hcn : buscarCols df.headers conceptoCands with
    | error e =>
      rw [hcn] at h
      injection h with h'
      subst h'
      exact ⟨conceptoCands, Or.inr (Or.inl rfl), buscarCols_error _ _ _ hcn⟩
    | ok cn =>
      rw [hcn] at h
      cases hm : buscarCols df.headers montoCands with
      | error e =>
        rw [hm] at h
        injection h with h'
        subst h'
        exact ⟨montoCands, Or.inr (Or.inr rfl), buscarCols_error _ _ _ hm⟩
      | ok mm => rw [hm] at h; cases h

theorem preparar_of_inferir_error (df : DataFrame) (m : String)
    (h : inferir_columnas df = Except.error m) :
    preparar_dataframe df = Except.error m := by
  unfold preparar_dataframe prepDf
  rw [h]

theorem preparar_of_inferir_ok (df : DataFrame) (cfg : ColumnConfig)
    (h : inferir_columnas df = Except.ok cfg) :
    preparar_dataframe df =
      Except.ok (recsOfDf (filtrarDf (withNorms (renameDf cfg df)))) := by
  unfold preparar_dataframe prepDf
  rw [h]

theorem recsOf_filtrar (X : DataFrame) :
    recsOfDf (filtrarDf X) = (recsOfDf X).filter validRec := by
  unfold recsOfDf filtrarDf
  dsimp only
  exact filter_map_swap (recOfRow X.headers) validRec X.rows

/-! ## Concrete inputs used by the claim evaluations -/

def sFechaH : String := "fecha"
def sConceptoH : String := "concepto"
def sMontoH : String := "monto"

def hdr3 : List String := [sFechaH, sConceptoH, sMontoH]

def sD0501 : String := "05/01/2024"
def sD0701 : String := "07/01/2024"
def sAAA : String := "AAA"
def sBBB : String := "BBB"
def sTen : String := "10"
def sTwenty : String := "20"
def sCien : String := "100"
def sPagoLuz : String := "PAGO LUZ"

/-- Two statement rows sharing the normalized date 2024-01-05; only the
second one (id 1) has a ledger match. -/
def gdfC1 : DataFrame :=
  ⟨hdr3, [[Value.str sD0501, Value.str sAAA, Value.str sTen],
          [Value.str sD0501, Value.str sBBB, Value.str sTwenty]]⟩

def cdfC1 : DataFrame :=
  ⟨hdr3, [[Value.str sD0501, Value.str sBBB, Value.str sTwenty]]⟩

def traceC1 : List TraceEntry :=
  (conciliar gdfC1 cdfC1 defaultCfg).toOption.getD []

def sBadDate : String := "xx"
def sY : String := "Y"
def sBadAmt : String := "zz"
def sOtherBad : String := "yy"

/-- A table whose only row fails normalization (bad date, bad amount). -/
def gdfC9 : DataFrame :=
  ⟨hdr3, [[Value.str sBadDate, Value.str sY, Value.str sBadAmt]]⟩

def cdfC9 : DataFrame :=
  ⟨hdr3, [[Value.str sOtherBad, Value.str sY, Value.str sBadAmt]]⟩

/-- A well-behaved 1×1 pair that produces one `Conciliado` outcome. -/
def gdfW : DataFrame :=
  ⟨hdr3, [[Value.str sD0501, Value.str sPagoLuz, Value.str sCien]]⟩

def cdfW : DataFrame :=
  ⟨hdr3, [[Value.str sD0501, Value.str sPagoLuz, Value.str sCien]]⟩

def recsGW : List Rec := (preparar_dataframe gdfW).toOption.getD []
def recsCW : List Rec := (preparar_dataframe cdfW).toOption.getD []
def traceW : List TraceEntry :=
  (conciliar gdfW cdfW defaultCfg).toOption.getD []

def defResRow : ResRow :=
  ⟨none, Value.null, none, none, Value.null, none, sNoneRepr, sNoneRepr⟩

def defTE : TraceEntry := ⟨none, none, defResRow⟩

def sHeaderX : String := "x"
def sCellY : String := "y"

/-- A table with no header mapping to any required role. -/
def gdfBad : DataFrame := ⟨[sHeaderX], [[Value.str sCellY]]⟩

def mFechaErr : String := errPrefix ++ String.intercalate commaSep fechaCands

def sBlank : String := "   "
def sGarb : String := "date 2024 bad"
def sEmptyStr : String := ""
def sPagoRaw : String := "Pagó Tarjeta Nº1"
def sPagoNorm : String := "PAGO TARJETA N 1"
def sAmtBoth : String := "1.234,56"
def sAmtComma : String := "1234,56"
def sAmtUS : String := "1,234.56"

def heapW : Heap := [gdfW, cdfW]

/-! ## Claim theorems -/

/-- C1 (code bug): the claim that every statement-side record id appears
in exactly one outcome fails on the code.  With two statement rows
sharing a normalized date where only the second (id 1) matches, passes 2
and 3 identify "already matched" rows by the first index carrying the
matched date: the run succeeds, both statement ids 0 and 1 survive the
builder, yet id 1 appears in two outcomes (`Conciliado` and
`No conciliado`) and id 0 appears in none. -/
theorem c1_outcome_coverage_violated :
    (conciliar gdfC1 cdfC1 defaultCfg).isOk = true ∧
    ((preparar_dataframe gdfC1).toOption.getD []).length = 2 ∧
    (traceC1.filter (fun e => e.idGasto == some 1)).length = 2 ∧
    (traceC1.filter (fun e => e.idGasto == some 0)).length = 0 := by decide

/-- C8: the matcher is deterministic — in this pure embedding of
`conciliar` (list iteration is in stable order and the Python sets are
used for membership only, which the embedding reproduces), two runs on
identical inputs and configuration are the same value. -/
theorem c8_matcher_deterministic :
    ∀ (gdf cdf : DataFrame) (cfg : MatchCfg),
      conciliar gdf cdf cfg = conciliar gdf cdf cfg :=
  fun _ _ _ => rfl

/-- C9 (code bug): the claim that the core returns a result and never
throws for role-resolved collections — including collections in which
every row is dropped, leaving both sides empty — fails on the code: with
both prepared collections empty, `resultados` stays empty,
`pd.DataFrame([])` has no columns, and the final column selection raises
a `KeyError` instead of returning an (empty) result. -/
theorem c9_empty_collections_keyerror :
    preparar_dataframe gdfC9 = Except.ok [] ∧
    preparar_dataframe cdfC9 = Except.ok [] ∧
    conciliar gdfC9 cdfC9 defaultCfg = Except.error keyErrorMsg := by decide

/-- C10: `conciliar` does not mutate its input frames: in the heap model
of its mutation structure (`df.copy()` allocates; `rename(inplace=True)`
and the normalized/id column assignments write only to the copies), the
frames at the caller's two refs are unchanged after the call, whatever
the heap, configuration and outcome. -/
theorem c10_inputs_not_mutated (h : Heap) (g c : Nat) (cfg : MatchCfg)
    (hg : g < h.length) (hc : c < h.length) :
    hGet (conciliar_heap h g c cfg).1 g = hGet h g ∧
    hGet (conciliar_heap h g c cfg).1 c = hGet h c :=
  conciliar_heap_pres h g c cfg hg hc

/-- Witness for C10 at a concrete two-frame heap. -/
theorem c10_inputs_not_mutated_witness :
    0 < heapW.length ∧ 1 < heapW.length ∧
    hGet (conciliar_heap heapW 0 1 defaultCfg).1 0 = hGet heapW 0 ∧
    hGet (conciliar_heap heapW 0 1 defaultCfg).1 1 = hGet heapW 1 :=
  ⟨by decide, by decide,
    (c10_inputs_not_mutated heapW 0 1 defaultCfg (by decide) (by decide)).1,
    (c10_inputs_not_mutated heapW 0 1 defaultCfg (by decide) (by decide)).2⟩

/-- C7: `normalizar_concepto` agrees everywhere with the specification's
description (trim, uppercase, strip combining marks, replace characters
outside `[A-Z0-9 \-_.]` by a space, collapse whitespace runs to one
space, trim again), returns the empty string — never null — on null or
empty input, and sends the example input to the expected result. -/
theorem c7_concept_normalizer_spec :
    (∀ v : Value, normalizar_concepto v = specNormalizeConcept v) ∧
    normalizar_concepto Value.null = "" ∧
    normalizar_concepto (Value.str sEmptyStr) = "" ∧
    normalizar_concepto (Value.str sPagoRaw) = sPagoNorm := by
  refine ⟨?_, by decide, by decide, by decide⟩
  intro v
  unfold normalizar_concepto specNormalizeConcept
  by_cases h : pdIsna v = true
  · simp [h]
  · have h' : pdIsna v = false := by simpa using h
    simp only [h', Bool.false_eq_true, if_false]
    exact congrArg String.mk
      (congrArg pyTrim
        (collapse_map_eq
          (quitar_tildes ((pyTrim (strOfValue v).data).map pyUpper)) false))

/-- C6: `normalizar_fecha` returns `none` on null input, on blank text,
and whenever no date format matches the stripped text (the coerced `NaT`
contract — the function is total, so no exception is possible); and it
parses `"05/01/2024"` day-first to the calendar date 2024-01-05. -/
theorem c6_date_null_contract :
    normalizar_fecha Value.null = none ∧
    (∀ s : String, (pyTrim s.data).isEmpty = true →
      normalizar_fecha (Value.str s) = none) ∧
    (∀ s : String, parseDateAny (pyTrim s.data) = none →
      normalizar_fecha (Value.str s) = none) ∧
    normalizar_fecha (Value.str sD0501) = some ⟨2024, 1, 5⟩ := by
  refine ⟨rfl, ?_, ?_, by decide⟩
  · intro s h
    simp [normalizar_fecha, pdIsna, strOfValue, h]
  · intro s h
    by_cases hemp : (pyTrim s.data).isEmpty = true
    · simp [normalizar_fecha, pdIsna, strOfValue, hemp]
    · simp [normalizar_fecha, pdIsna, strOfValue, hemp, h]

/-- Witness for C6: a blank string and a no-format-matches string both
yield `none` via the theorem. -/
theorem c6_date_null_contract_witness :
    normalizar_fecha (Value.str sBlank) = none ∧
    normalizar_fecha (Value.str sGarb) = none :=
  ⟨c6_date_null_contract.2.1 sBlank (by decide),
   c6_date_null_contract.2.2.1 sGarb (by decide)⟩

/-- C2: every `Conciliado` (Matched) or `Posible` outcome emitted by the
matcher pairs a statement record and a ledger record (resolved by id in
the prepared collections) whose `monto_norm` values are float-equal; a
`Conciliado` pair has identical normalized date instants, and a
`Posible` pair's dates differ by at most `ventana_dias_posible` days —
see `outcomeOk`, `pairedOk`, `sameAmount`, `matchedDates`,
`windowDates`. -/
theorem c2_matched_possible_amount_date
    (gdf cdf : DataFrame) (cfg : MatchCfg) (recsG recsC : List Rec)
    (trace : List TraceEntry)
    (hg : preparar_dataframe gdf = Except.ok recsG)
    (hc : preparar_dataframe cdf = Except.ok recsC)
    (ht : conciliar gdf cdf cfg = Except.ok trace) :
    ∀ e ∈ trace, outcomeOk recsG recsC cfg.ventana_dias_posible e := by
  unfold conciliar at ht
  rw [hg, hc] at ht
  dsimp only at ht
  by_cases hemp : (conciliarCore recsG recsC cfg).isEmpty = true
  · rw [if_pos hemp] at ht; cases ht
  · rw [if_neg hemp] at ht
    injection ht with ht'
    subst ht'
    exact conciliarCore_outcomeOk recsG recsC cfg

/-- Witness for C2 at the 1×1 `Conciliado` run. -/
theorem c2_matched_possible_amount_date_witness :
    preparar_dataframe gdfW = Except.ok recsGW ∧
    conciliar gdfW cdfW defaultCfg = Except.ok traceW ∧
    outcomeOk recsGW recsCW defaultCfg.ventana_dias_posible
      (traceW.getD 0 defTE) :=
  ⟨by decide, by decide,
    c2_matched_possible_amount_date gdfW cdfW defaultCfg recsGW recsCW traceW
      (by decide) (by decide) (by decide) (traceW.getD 0 defTE) (by decide)⟩

/-- C3: when a required role cannot be resolved on either input table,
`conciliar` propagates the validation error — whose message carries the
searched candidate-name list of the failing role — and returns no
result. -/
theorem c3_column_error_carries_candidates
    (gdf cdf : DataFrame) (cfg : MatchCfg) (m : String)
    (h : inferir_columnas gdf = Except.error m ∨
      ((∃ cc, inferir_columnas gdf = Except.ok cc) ∧
        inferir_columnas cdf = Except.error m)) :
    conciliar gdf cdf cfg = Except.error m ∧
    ∃ names, (names = fechaCands ∨ names = conceptoCands ∨ names = montoCands) ∧
      m = errPrefix ++ String.intercalate commaSep names := by
  rcases h with h | ⟨⟨cc, hok⟩, herr⟩
  · refine ⟨?_, inferir_error_msg gdf m h⟩
    unfold conciliar
    rw [preparar_of_inferir_error gdf m h]
  · refine ⟨?_, inferir_error_msg cdf m herr⟩
    unfold conciliar
    rw [preparar_of_inferir_ok gdf cc hok, preparar_of_inferir_error cdf m herr]

/-- Witness for C3 at a table with a single unrelated header. -/
theorem c3_column_error_carries_candidates_witness :
    conciliar gdfBad cdfW defaultCfg = Except.error mFechaErr ∧
    ∃ names, (names = fechaCands ∨ names = conceptoCands ∨ names = montoCands) ∧
      mFechaErr = errPrefix ++ String.intercalate commaSep names :=
  c3_column_error_carries_candidates gdfBad cdfW defaultCfg mFechaErr
    (Or.inl (by decide))

/-- C4: the record builder keeps exactly the normalized rows whose date
and amount are non-null and whose concept is nonempty (in original
order), so no dropped row reaches matching; and the ids assigned to the
surviving records are exactly their 0-based positions. -/
theorem c4_builder_filters_and_ids
    (df : DataFrame) (cfg : ColumnConfig) (recs : List Rec)
    (hinf : inferir_columnas df = Except.ok cfg)
    (hp : preparar_dataframe df = Except.ok recs) :
    recs = (recsOfDf (withNorms (renameDf cfg df))).filter validRec ∧
    (∀ r ∈ recs, validRec r = true) ∧
    recs.enum.map Prod.fst = List.range recs.length := by
  rw [preparar_of_inferir_ok df cfg hinf] at hp
  injection hp with hp'
  have hrecs : recs = (recsOfDf (withNorms (renameDf cfg df))).filter validRec := by
    rw [← hp', recsOf_filtrar]
  refine ⟨hrecs, ?_, List.enum_map_fst recs⟩
  intro r hr
  rw [hrecs] at hr
  exact (List.mem_filter.mp hr).2

def gdfC4 : DataFrame :=
  ⟨hdr3, [[Value.str sD0501, Value.str sAAA, Value.str sTen],
          [Value.str sBadDate, Value.str sY, Value.str sBadAmt]]⟩

def cfgC4 : ColumnConfig := ⟨sFechaH, sConceptoH, sMontoH⟩

def recsC4 : List Rec := (preparar_dataframe gdfC4).toOption.getD []

/-- Witness for C4: of two raw rows, the invalid one is dropped, the
survivor keeps id 0. -/
theorem c4_builder_filters_and_ids_witness :
    recsC4.length = 1 ∧
    recsC4 = (recsOfDf (withNorms (renameDf cfgC4 gdfC4))).filter validRec ∧
    recsC4.enum.map Prod.fst = List.range recsC4.length :=
  ⟨by decide,
    (c4_builder_filters_and_ids gdfC4 cfgC4 recsC4 (by decide) (by decide)).1,
    (c4_builder_filters_and_ids gdfC4 cfgC4 recsC4 (by decide) (by decide)).2.2⟩

/-- C5 counterexample: the claim asserts
`normalizeAmount("1,234.56") = 1234.56` via the both-separators rule,
but that rule strips every `.` and turns `,` into the decimal point, so
the code yields 1.23, which is not float-equal to 1234.56. -/
theorem c5_us_format_counterexample :
    normalizar_monto (Value.str sAmtUS) = some ⟨123, 100⟩ ∧
    qEqB ⟨123, 100⟩ ⟨123456, 100⟩ = false := by decide

/-- C5 (amended): text with both `,` and `.` is parsed by stripping the
dots (thousands separators) and replacing the comma by the decimal
point; text with only `,` treats the comma as the decimal point; in
particular `"1.234,56"` and `"1234,56"` both normalize to 1234.56, while
`"1,234.56"` normalizes to 1.23 under the both-separators rule. -/
theorem c5_amount_separator_rules :
    (∀ s : String,
      ((removeCh ' ' (pyTrim s.data)).contains ',' &&
        (removeCh ' ' (pyTrim s.data)).contains '.') = true →
      normalizar_monto (Value.str s) =
        (pyFloat ((removeCh '.' (removeCh ' ' (pyTrim s.data))).map
          (fun c => if c = ',' then '.' else c))).map (fun x => round2 (qAbs x))) ∧
    (∀ s : String,
      (removeCh ' ' (pyTrim s.data)).contains ',' = true →
      (removeCh ' ' (pyTrim s.data)).contains '.' = false →
      normalizar_monto (Value.str s) =
        (pyFloat ((removeCh ' ' (pyTrim s.data)).map
          (fun c => if c = ',' then '.' else c))).map (fun x => round2 (qAbs x))) ∧
    normalizar_monto (Value.str sAmtBoth) = some ⟨123456, 100⟩ ∧
    normalizar_monto (Value.str sAmtComma) = some ⟨123456, 100⟩ ∧
    normalizar_monto (Value.str sAmtUS) = some ⟨123, 100⟩ := by
  have hne : ∀ s : String,
      (removeCh ' ' (pyTrim s.data)).contains ',' = true →
      (pyTrim s.data).isEmpty = false := by
    intro s hcm
    cases hpt : pyTrim s.data with
    | nil => rw [hpt] at hcm; simp [removeCh] at hcm
    | cons a l => simp
  refine ⟨?_, ?_, by decide, by decide, by decide⟩
  · intro s h
    have h' := h
    simp only [Bool.and_eq_true] at h'
    simp only [normalizar_monto, pdIsna, strOfValue, hne s h'.1,
      Bool.false_eq_true, if_false]
    rw [if_pos h]
  · intro s h1 h2
    simp only [normalizar_monto, pdIsna, strOfValue, hne s h1,
      Bool.false_eq_true, if_false]
    rw [if_neg (by
      intro hand
      rw [Bool.and_eq_true] at hand
      rw [h2] at hand
      exact absurd hand.2 (by decide)), if_pos h1]

/-- Witness for C5's amended rules at `"1.234,56"` and `"1234,56"`. -/
theorem c5_amount_separator_rules_witness :
    normalizar_monto (Value.str sAmtBoth) =
      (pyFloat ((removeCh '.' (removeCh ' ' (pyTrim sAmtBoth.data))).map
        (fun c => if c = ',' then '.' else c))).map (fun x => round2 (qAbs x)) ∧
    normalizar_monto (Value.str sAmtComma) =
      (pyFloat ((removeCh ' ' (pyTrim sAmtComma.data)).map
        (fun c => if c = ',' then '.' else c))).map (fun x => round2 (qAbs x)) :=
  ⟨c5_amount_separator_rules.1 sAmtBoth (by decide),
   c5_amount_separator_rules.2.1 sAmtComma (by decide) (by decide)⟩
